import Mathlib

/-!
# Verification of the IteratoP convergent-iteration control engine

A shallow embedding of the repository's loop controller (`IterationProcessor`
in `src/core`), its streaming variant (`StreamingIteratoP` in `src/stream`),
the configuration resolver, the termination evaluator, the transition gate,
the event bus, and the `createEvaluation` utility.

Modelling conventions:
* JavaScript numbers used for scores, thresholds and costs are modelled as
  `Int` (every claim is about order comparisons, clamping and sums, which the
  integers express exactly; `NaN` behaviour is explicitly out of scope).
* Durations (`Date.now()` differences) are modelled as `Nat`.  The wall clock
  is abstracted by a function `elapsedAt : Nat → Nat` giving the elapsed time
  sampled at the start of iteration slot `i`, plus a final sample
  `totalElapsed` taken when the run ends.
* The asynchronous user phases are opaque collaborators; each is a function
  returning `Except String _` (`.error` models a thrown exception).
* The JavaScript truthiness test `if (this.config.timeout && …)` is kept:
  a configured timeout of `0` is falsy and disables the check.
-/

/-- Reason a run stopped (the `terminationReason` union type). -/
inductive TermReason where
  | converged
  | early_stop
  | max_iterations
  | timeout
  | manual_stop
  deriving DecidableEq, Repr

/-- `Evaluation` from `src/types`: the result of assessing current state.
The `metadata` record is elided (no claim mentions it). -/
structure Evaluation where
  score : Int
  shouldContinue : Bool
  feedback : String := ""
  missingInfo : Option (List String) := none
  deriving DecidableEq, Repr

/-- `ActionResult.metadata` from `src/types`. -/
structure ActionMetadata where
  sources : Option (List String) := none
  cost : Option Int := none
  latency : Option Nat := none
  warnings : Option (List String) := none
  deriving DecidableEq, Repr

/-- `ActionResult<T>` from `src/types`. -/
structure ActionResult (T : Type) where
  data : T
  metadata : Option ActionMetadata := none
  deriving DecidableEq, Repr

/-- `IterationContext` from `src/types`: read-only per-iteration metadata. -/
structure IterationContext where
  iteration : Nat
  maxIterations : Nat
  elapsedTime : Nat
  previousEvaluation : Option Evaluation := none
  deriving DecidableEq, Repr

/-- `IterationHistory<ActionData>` from `src/types`. -/
structure IterationHistory (ActionData : Type) where
  iteration : Nat
  actionResult : ActionResult ActionData
  evaluation : Evaluation
  timestamp : Nat
  duration : Nat
  deriving DecidableEq, Repr

/-- `IterationResult<Result, ActionData>` from `src/types`. -/
structure IterationResult (Result ActionData : Type) where
  result : Result
  iterations : Nat
  finalScore : Int
  converged : Bool
  terminationReason : TermReason
  totalCost : Int
  totalLatency : Nat
  history : List (IterationHistory ActionData)
  deriving DecidableEq, Repr

/-- User-supplied configuration (`IterationConfig` from `src/types`): every
field optional.  The `logger` field is modelled separately by the event-bus
section (`hasLogger`). -/
structure IterationConfig where
  maxIterations : Option Nat := none
  targetScore : Option Int := none
  earlyStopScore : Option Int := none
  minIterations : Option Nat := none
  timeout : Option Nat := none
  verbose : Option Bool := none
  alwaysRunTransition : Option Bool := none
  skipMinIterations : Option Bool := none
  deriving DecidableEq, Repr

/-- `ResolvedConfig` from `src/types`: configuration with defaults applied. -/
structure ResolvedConfig where
  maxIterations : Nat
  targetScore : Int
  earlyStopScore : Int
  minIterations : Nat
  timeout : Option Nat
  verbose : Bool
  alwaysRunTransition : Bool
  skipMinIterations : Bool
  deriving DecidableEq, Repr

/-- The `IterationProcessor` constructor (`src/core`, lines 32-57): apply
defaults to `maxIterations`/`minIterations`, reject `min > max`, then build
the resolved configuration. -/
def resolveConfig (config : IterationConfig) : Except String ResolvedConfig :=
  let maxIterations := config.maxIterations.getD 5
  let minIterations := config.minIterations.getD 1
  if minIterations > maxIterations then
    .error "Invalid configuration: minIterations cannot be greater than maxIterations"
  else
    .ok {
      maxIterations := maxIterations
      targetScore := config.targetScore.getD 70
      earlyStopScore := config.earlyStopScore.getD 95
      minIterations := minIterations
      timeout := config.timeout
      verbose := config.verbose.getD false
      alwaysRunTransition := config.alwaysRunTransition.getD false
      skipMinIterations := config.skipMinIterations.getD false }

/-- `IterationProcessor.updateConfig` (`src/core`, lines 297-310): validate
the post-update `minIterations`/`maxIterations` pair first; on failure the
live configuration is returned untouched together with the thrown message,
otherwise `Object.assign` overwrites exactly the supplied fields. -/
def updateConfig (current : ResolvedConfig) (config : IterationConfig) :
    ResolvedConfig × Option String :=
  let newMaxIterations := config.maxIterations.getD current.maxIterations
  let newMinIterations := config.minIterations.getD current.minIterations
  if newMinIterations > newMaxIterations then
    (current, some "Invalid configuration: minIterations cannot be greater than maxIterations")
  else
    ({ maxIterations := newMaxIterations
       targetScore := config.targetScore.getD current.targetScore
       earlyStopScore := config.earlyStopScore.getD current.earlyStopScore
       minIterations := newMinIterations
       timeout := config.timeout.orElse (fun _ => current.timeout)
       verbose := config.verbose.getD current.verbose
       alwaysRunTransition := config.alwaysRunTransition.getD current.alwaysRunTransition
       skipMinIterations := config.skipMinIterations.getD current.skipMinIterations }, none)

/-- `IterationProcessor.getConfig` (`src/core`, lines 283-285): a defensive
spread copy; in a pure value model the copy is the value itself. -/
def getConfig (c : ResolvedConfig) : ResolvedConfig := c

/-- `IterationProcessor.resetConfig` defaults (`src/core`, lines 315-328). -/
def resetConfig : ResolvedConfig :=
  { maxIterations := 5, targetScore := 70, earlyStopScore := 95, minIterations := 1
    timeout := none, verbose := false, alwaysRunTransition := false, skipMinIterations := false }

/-- Decision returned by `IterationProcessor.checkTermination`. -/
structure TermDecision where
  terminate : Bool
  reason : TermReason
  deriving DecidableEq, Repr

/-- The body of `IterationProcessor.checkTermination` (`src/core`, lines
248-278), given the boolean produced by the optional custom
`shouldTerminate` callback (`false` when the callback is absent). -/
def checkTerminationWith (custom : Bool) (evaluation : Evaluation) (iteration : Nat)
    (cfg : ResolvedConfig) : TermDecision :=
  if custom then
    { terminate := true, reason := .manual_stop }
  else if evaluation.score ≥ cfg.earlyStopScore then
    { terminate := true, reason := .early_stop }
  else if !evaluation.shouldContinue then
    { terminate := true, reason := .converged }
  else if evaluation.score ≥ cfg.targetScore then
    if iteration ≥ cfg.minIterations - 1 || cfg.skipMinIterations then
      { terminate := true, reason := .converged }
    else
      { terminate := false, reason := .max_iterations }
  else
    { terminate := false, reason := .max_iterations }

/-- The transition gate of `IterationProcessor.run` (`src/core`, lines
169-173): `shouldRunTransition = (!isLast || alwaysRunTransition) && !terminate`,
and the transition is invoked when
`shouldRunTransition || (alwaysRunTransition && terminate)`. -/
def transitionInvoked (terminating isLastIteration alwaysRunTransition : Bool) : Bool :=
  ((!isLastIteration || alwaysRunTransition) && !terminating) ||
    (alwaysRunTransition && terminating)

/-- Options object accepted by `createEvaluation` (`src/utils`):
`Partial<Omit<Evaluation, 'score'>>`. -/
structure EvaluationOptions where
  shouldContinue : Option Bool := none
  feedback : Option String := none
  missingInfo : Option (List String) := none
  deriving DecidableEq, Repr

/-- `createEvaluation` (`src/utils`, lines 90-101): clamp the score into
`[0, 100]` with `Math.max(0, Math.min(100, score))`; `shouldContinue`
defaults to `score < 70` computed from the unclamped score. -/
def createEvaluation (score : Int) (options : EvaluationOptions := {}) : Evaluation :=
  { score := max 0 (min 100 score)
    shouldContinue := options.shouldContinue.getD (decide (score < 70))
    feedback := options.feedback.getD ""
    missingInfo := options.missingInfo }

/-- `calculateTotalCost` / the `totalCost` reduce in `IterationProcessor.run`
(`src/core`, lines 190-193): sum of `actionResult.metadata?.cost ?? 0`. -/
def totalCostOf {ActionData : Type} (history : List (IterationHistory ActionData)) : Int :=
  history.foldl (fun sum h => sum + ((h.actionResult.metadata.bind (fun m => m.cost)).getD 0)) 0

/-- Lifecycle events (`IterationEvent` from `src/types`).  Payloads other
than the iteration number and the converged score are elided: the claims
under verification only concern which events occur, and for which slot. -/
inductive Event where
  | start
  | iteration_start (iteration : Nat)
  | action_complete (iteration : Nat)
  | evaluation_complete (iteration : Nat)
  | transition_complete (iteration : Nat)
  | iteration_complete (iteration : Nat)
  | converged (iteration : Nat) (score : Int)
  | complete
  | error (iteration : Nat)
  deriving DecidableEq, Repr

/-- `IterationOptions` from `src/types`: the five user phases plus the two
optional callbacks.  `.error` models a thrown exception; `initializeFn`
embeds the phase the source calls `initialize`. -/
structure IterationOptions (Input State ActionData Result : Type) where
  initializeFn : Input → Except String State
  act : State → IterationContext → Except String (ActionResult ActionData)
  evaluate : State → ActionResult ActionData → IterationContext → Except String Evaluation
  transition : State → ActionResult ActionData → Evaluation → IterationContext → Except String State
  finalize : State → List (IterationHistory ActionData) → Except String Result
  shouldTerminate : Option (State → Evaluation → IterationContext → Except String Bool) := none
  onError : Option (String → Option State → IterationContext → Result) := none

/-- `IterationProcessor.checkTermination` including the optional custom
callback (`src/core`, lines 248-278): a thrown callback propagates; a `true`
result short-circuits to `manual_stop`. -/
def checkTermination {Input State ActionData Result : Type}
    (opts : IterationOptions Input State ActionData Result) (cfg : ResolvedConfig)
    (state : State) (evaluation : Evaluation) (context : IterationContext)
    (iteration : Nat) : Except String TermDecision :=
  match opts.shouldTerminate with
  | some f => do
      let custom ← f state evaluation context
      pure (checkTerminationWith custom evaluation iteration cfg)
  | none => pure (checkTerminationWith false evaluation iteration cfg)

/-- `finalEvaluation`'s initial value in `IterationProcessor.run`
(`src/core`, lines 108-112). -/
def initialEvaluation : Evaluation :=
  { score := 0, shouldContinue := true, feedback := "" }

/-- The per-slot context built by `IterationProcessor.run` (`src/core`,
lines 135-140): `previousEvaluation` is the running `finalEvaluation` for
`i > 0` and `undefined` for the first iteration. -/
def mkContext (cfg : ResolvedConfig) (elapsed : Nat) (i : Nat) (lastEval : Evaluation) :
    IterationContext :=
  { iteration := i, maxIterations := cfg.maxIterations, elapsedTime := elapsed
    previousEvaluation := if 0 < i then some lastEval else none }

/-- Observable outcome of the `for` loop inside `IterationProcessor.run`
(`src/core`, lines 125-186).  `outcome` is `.error (e, lastKnownState)` when
a phase or the custom callback threw, otherwise the termination reason and
the loop's final state.  `ctxs` is the trace of per-iteration contexts the
loop handed to the phases (observable in the source only through the
arguments of `act`/`evaluate`/`transition`). -/
structure LoopOut (State ActionData : Type) where
  outcome : Except (String × Option State) (TermReason × State)
  hist : List (IterationHistory ActionData)
  lastEval : Evaluation
  events : List Event
  ctxs : List IterationContext

/-- The `for` loop of `IterationProcessor.run` (`src/core`, lines 125-186),
with the remaining iteration budget as structural fuel (`fuel` = `maxIterations - i`).
Each slot: truthy-timeout check, context build, `act`, `evaluate`, history
append, `checkTermination`, transition gate, conditional `transition`, and
the termination break; accumulators mirror the source's pushes. -/
def runLoop {Input State ActionData Result : Type}
    (opts : IterationOptions Input State ActionData Result) (cfg : ResolvedConfig)
    (elapsedAt : Nat → Nat) :
    Nat → Nat → State → List (IterationHistory ActionData) → Evaluation →
    List Event → List IterationContext → LoopOut State ActionData
  | 0, _, state, hist, lastEval, events, ctxs =>
    { outcome := .ok (.max_iterations, state), hist := hist, lastEval := lastEval
      events := events, ctxs := ctxs }
  | fuel + 1, i, state, hist, lastEval, events, ctxs =>
    if cfg.timeout.any (fun t => t != 0 && elapsedAt i > t) then
      { outcome := .ok (.timeout, state), hist := hist, lastEval := lastEval
        events := events, ctxs := ctxs }
    else
      let context := mkContext cfg (elapsedAt i) i lastEval
      let events := events ++ [Event.iteration_start i]
      let ctxs := ctxs ++ [context]
      match opts.act state context with
      | .error e =>
        { outcome := .error (e, some state), hist := hist, lastEval := lastEval
          events := events, ctxs := ctxs }
      | .ok actionResult =>
        let events := events ++ [Event.action_complete i]
        match opts.evaluate state actionResult context with
        | .error e =>
          { outcome := .error (e, some state), hist := hist, lastEval := lastEval
            events := events, ctxs := ctxs }
        | .ok evaluation =>
          let events := events ++ [Event.evaluation_complete i]
          let entry : IterationHistory ActionData :=
            { iteration := i, actionResult := actionResult, evaluation := evaluation
              timestamp := elapsedAt i, duration := 0 }
          let hist := hist ++ [entry]
          let events := events ++ [Event.iteration_complete i]
          let isLastIteration := i == cfg.maxIterations - 1
          match checkTermination opts cfg state evaluation context i with
          | .error e =>
            { outcome := .error (e, some state), hist := hist, lastEval := evaluation
              events := events, ctxs := ctxs }
          | .ok td =>
            if transitionInvoked td.terminate isLastIteration cfg.alwaysRunTransition then
              match opts.transition state actionResult evaluation context with
              | .error e =>
                { outcome := .error (e, some state), hist := hist, lastEval := evaluation
                  events := events, ctxs := ctxs }
              | .ok state' =>
                let events := events ++ [Event.transition_complete i]
                if td.terminate then
                  { outcome := .ok (td.reason, state'), hist := hist, lastEval := evaluation
                    events := events ++ [Event.converged i evaluation.score], ctxs := ctxs }
                else
                  runLoop opts cfg elapsedAt fuel (i + 1) state' hist evaluation events ctxs
            else
              if td.terminate then
                { outcome := .ok (td.reason, state), hist := hist, lastEval := evaluation
                  events := events ++ [Event.converged i evaluation.score], ctxs := ctxs }
              else
                runLoop opts cfg elapsedAt fuel (i + 1) state hist evaluation events ctxs

/-- Result of a whole `run` call: the emitted events, the trace of contexts
passed to the phases, and either the `IterationResult` or the rethrown
error. -/
structure RunOutput (State ActionData Result : Type) where
  events : List Event
  ctxs : List IterationContext
  outcome : Except String (IterationResult Result ActionData)

/-- The `catch` block of `IterationProcessor.run` (`src/core`, lines
215-242): the `error` event has already been appended to `events`; with an
`onError` handler the run resolves to a fallback `IterationResult`
(`terminationReason = manual_stop`, `converged = false`), otherwise the
error is rethrown. -/
def recover {Input State ActionData Result : Type}
    (opts : IterationOptions Input State ActionData Result) (cfg : ResolvedConfig)
    (totalElapsed : Nat) (e : String) (stateOpt : Option State)
    (hist : List (IterationHistory ActionData)) (lastEval : Evaluation)
    (events : List Event) (ctxs : List IterationContext) :
    RunOutput State ActionData Result :=
  match opts.onError with
  | some handler =>
    let context : IterationContext :=
      { iteration := hist.length, maxIterations := cfg.maxIterations
        elapsedTime := totalElapsed, previousEvaluation := some lastEval }
    { events := events, ctxs := ctxs
      outcome := .ok {
        result := handler e stateOpt context
        iterations := hist.length
        finalScore := lastEval.score
        converged := false
        terminationReason := .manual_stop
        totalCost := totalCostOf hist
        totalLatency := totalElapsed
        history := hist } }
  | none => { events := events, ctxs := ctxs, outcome := .error e }

/-- The code after the loop in `IterationProcessor.run` (`src/core`, lines
188-214): call `finalize`, assemble the `IterationResult`
(`finalScore` = running `finalEvaluation.score`,
`converged = finalScore >= targetScore`, `totalCost` from the history),
and emit `complete`; a throwing `finalize` falls into the `catch` block. -/
def finishRun {Input State ActionData Result : Type}
    (opts : IterationOptions Input State ActionData Result) (cfg : ResolvedConfig)
    (totalElapsed : Nat) (o : LoopOut State ActionData) :
    RunOutput State ActionData Result :=
  match o.outcome with
  | .error (e, stateOpt) =>
    recover opts cfg totalElapsed e stateOpt o.hist o.lastEval
      (o.events ++ [Event.error o.hist.length]) o.ctxs
  | .ok (reason, state) =>
    match opts.finalize state o.hist with
    | .error e =>
      recover opts cfg totalElapsed e (some state) o.hist o.lastEval
        (o.events ++ [Event.error o.hist.length]) o.ctxs
    | .ok result =>
      { events := o.events ++ [Event.complete]
        ctxs := o.ctxs
        outcome := .ok {
          result := result
          iterations := o.hist.length
          finalScore := o.lastEval.score
          converged := decide (o.lastEval.score ≥ cfg.targetScore)
          terminationReason := reason
          totalCost := totalCostOf o.hist
          totalLatency := totalElapsed
          history := o.hist } }

/-- `IterationProcessor.run` (`src/core`, lines 104-243): emit `start`, call
the `initialize` phase (a failure there reaches the `catch` block with an
undefined state), run the loop, then finish or recover. -/
def batchLoop {Input State ActionData Result : Type}
    (opts : IterationOptions Input State ActionData Result) (cfg : ResolvedConfig)
    (elapsedAt : Nat → Nat) (state0 : State) : LoopOut State ActionData :=
  runLoop opts cfg elapsedAt cfg.maxIterations 0 state0 [] initialEvaluation
    [Event.start] []

def run {Input State ActionData Result : Type}
    (opts : IterationOptions Input State ActionData Result) (cfg : ResolvedConfig)
    (elapsedAt : Nat → Nat) (totalElapsed : Nat) (input : Input) :
    RunOutput State ActionData Result :=
  match opts.initializeFn input with
  | .error e =>
    recover opts cfg totalElapsed e none [] initialEvaluation
      [Event.start, Event.error 0] []
  | .ok state0 =>
    finishRun opts cfg totalElapsed (batchLoop opts cfg elapsedAt state0)

/-- `StreamingState<State, ActionData>` from `src/stream`: the per-iteration
snapshot materialized by the streaming controller. -/
structure StreamingState (State ActionData : Type) where
  iteration : Nat
  state : State
  evaluation : Option Evaluation := none
  actionResult : Option (ActionResult ActionData) := none
  converged : Bool
  timedOut : Option Bool := none
  context : IterationContext
  deriving DecidableEq, Repr

/-- A snapshot paired with the ghost observation of whether the transition
phase ran while producing it (observable in the source only through the
`transition` call itself). -/
structure StreamSnap (State ActionData : Type) where
  snap : StreamingState State ActionData
  ranTransition : Bool
  deriving DecidableEq, Repr

/-- The option defaults read by `StreamingIteratoP.executeStream`
(`src/stream`, lines 54-59).  No validation is performed there. -/
structure StreamCfg where
  maxIterations : Nat
  minIterations : Nat
  targetScore : Int
  skipMinIterations : Bool
  timeout : Option Nat
  deriving DecidableEq, Repr

/-- Defaults applied inline by `executeStream` (`src/stream`, lines 54-59). -/
def resolveStreamCfg (options : IterationConfig) : StreamCfg :=
  { maxIterations := options.maxIterations.getD 5
    minIterations := options.minIterations.getD 1
    targetScore := options.targetScore.getD 70
    skipMinIterations := options.skipMinIterations.getD false
    timeout := options.timeout }

/-- The convergence check of `StreamingIteratoP.executeStream` (`src/stream`,
lines 121-128): the `if / else if / else if` chain that sets `converged`,
written as the disjunction of its three guards. -/
def streamConverged (cfgS : StreamCfg) (score : Int) (shouldContinue : Bool)
    (iteration : Nat) : Bool :=
  (cfgS.skipMinIterations && decide (score ≥ cfgS.targetScore)) ||
    (decide (score ≥ cfgS.targetScore) && decide (iteration ≥ cfgS.minIterations)) ||
    (!shouldContinue && decide (iteration ≥ cfgS.minIterations))

/-- What the streaming loop returns besides its snapshots: the state and
history handed to `finalize`. -/
structure StreamLoopOut (State ActionData : Type) where
  snaps : List (StreamSnap State ActionData)
  finalState : State
  history : List (IterationHistory ActionData)

/-- The `while` loop of `StreamingIteratoP.executeStream` (`src/stream`,
lines 75-149), with the remaining budget as structural fuel
(`fuel` = `maxIterations - iteration`).  Iterations are counted 1-based:
the counter is incremented before the context is built.  A timeout snapshot
(truthy check, as in the batch loop) carries `timedOut = some true`; each
completed iteration appends one snapshot recording the post-transition
state; the transition phase runs exactly when the iteration did not
converge.  Thrown phases propagate (the catch block rethrows). -/
def executeStreamLoop {Input State ActionData Result : Type}
    (opts : IterationOptions Input State ActionData Result) (cfgS : StreamCfg)
    (elapsedAt : Nat → Nat) :
    Nat → Nat → State → List (IterationHistory ActionData) →
    List (StreamSnap State ActionData) →
    Except String (StreamLoopOut State ActionData)
  | 0, _, currentState, history, snaps =>
    .ok { snaps := snaps, finalState := currentState, history := history }
  | fuel + 1, iteration, currentState, history, snaps =>
    if cfgS.timeout.any (fun t => t != 0 && elapsedAt iteration > t) then
      let context : IterationContext :=
        { iteration := iteration + 1, maxIterations := cfgS.maxIterations
          elapsedTime := elapsedAt iteration
          previousEvaluation := (history.getLast?).map (fun h => h.evaluation) }
      .ok { snaps := snaps ++ [{
              snap := { iteration := iteration + 1, state := currentState
                        converged := false, timedOut := some true, context := context }
              ranTransition := false }]
            finalState := currentState, history := history }
    else
      let context : IterationContext :=
        { iteration := iteration + 1, maxIterations := cfgS.maxIterations
          elapsedTime := elapsedAt iteration
          previousEvaluation := (history.getLast?).map (fun h => h.evaluation) }
      match opts.act currentState context with
      | .error e => .error e
      | .ok actionResult =>
        match opts.evaluate currentState actionResult context with
        | .error e => .error e
        | .ok evaluation =>
          let history := history ++ [{
            iteration := iteration + 1, actionResult := actionResult
            evaluation := evaluation, timestamp := elapsedAt iteration, duration := 0 }]
          let converged :=
            streamConverged cfgS evaluation.score evaluation.shouldContinue (iteration + 1)
          if converged then
            .ok { snaps := snaps ++ [{
                    snap := { iteration := iteration + 1, state := currentState
                              evaluation := some evaluation
                              actionResult := some actionResult
                              converged := converged, context := context }
                    ranTransition := false }]
                  finalState := currentState, history := history }
          else
            match opts.transition currentState actionResult evaluation context with
            | .error e => .error e
            | .ok nextState =>
              executeStreamLoop opts cfgS elapsedAt fuel (iteration + 1) nextState history
                (snaps ++ [{
                  snap := { iteration := iteration + 1, state := nextState
                            evaluation := some evaluation
                            actionResult := some actionResult
                            converged := converged, context := context }
                  ranTransition := true }])

/-- The initial snapshot pushed before the loop (`src/stream`, lines
61-73): iteration 0, no evaluation, elapsed time 0. -/
def initialStreamSnaps {State ActionData : Type} (cfgS : StreamCfg) (initialState : State) :
    List (StreamSnap State ActionData) :=
  [{ snap := { iteration := 0, state := initialState, converged := false
               context := { iteration := 0, maxIterations := cfgS.maxIterations
                            elapsedTime := 0, previousEvaluation := none } }
     ranTransition := false }]

/-- `StreamingIteratoP.executeStream` (`src/stream`, lines 43-161):
initialize, push the initial snapshot (iteration 0), run the loop, call
`finalize` (its value is discarded, its failure propagates), and return the
snapshot list. -/
def executeStream {Input State ActionData Result : Type}
    (opts : IterationOptions Input State ActionData Result)
    (options : IterationConfig) (elapsedAt : Nat → Nat) (input : Input) :
    Except String (List (StreamSnap State ActionData)) :=
  match opts.initializeFn input with
  | .error e => .error e
  | .ok initialState =>
    let cfgS := resolveStreamCfg options
    match executeStreamLoop opts cfgS elapsedAt cfgS.maxIterations 0 initialState []
        (initialStreamSnaps cfgS initialState) with
    | .error e => .error e
    | .ok out =>
      match opts.finalize out.finalState out.history with
      | .error e => .error e
      | .ok _ => .ok out.snaps

/-- The stream of `StreamingState` values the source returns
(`fromArray(states)`): the ghost transition flags projected away. -/
def executeStreamStates {Input State ActionData Result : Type}
    (opts : IterationOptions Input State ActionData Result)
    (options : IterationConfig) (elapsedAt : Nat → Nat) (input : Input) :
    Except String (List (StreamingState State ActionData)) :=
  (executeStream opts options elapsedAt input).map (fun snaps => snaps.map (fun s => s.snap))

/-- Where a listener fault is routed (`src/core`, lines 76-83): the
configured logger's `error` sink when present, otherwise `console.error`. -/
inductive LogSink where
  | logger
  | console
  deriving DecidableEq, Repr

/-- One routed listener-fault log line. -/
structure LogEntry where
  sink : LogSink
  message : String
  errText : String
  deriving DecidableEq, Repr

/-- The `catch` arm inside `IterationProcessor.emit` (`src/core`, lines
76-83): route the thrown value with the descriptive prefix to the logger's
error sink when a logger is configured, else to the console. -/
def listenerFault (hasLogger : Bool) (errText : String) : LogEntry :=
  { sink := if hasLogger then LogSink.logger else LogSink.console
    message := "[IteratoP] Event listener error:"
    errText := errText }

/-- The fault boundary around one listener invocation: a normal return logs
nothing, a thrown value is caught and produces exactly one routed entry. -/
def listenerLog (hasLogger : Bool) (event : Event)
    (listener : Event → Except String Unit) : List LogEntry :=
  match listener event with
  | .ok _ => []
  | .error e => [listenerFault hasLogger e]

/-- `IterationProcessor.emit` (`src/core`, lines 72-85): invoke every
listener in order, each inside its own fault boundary.  The return type is
total: no listener exception escapes. -/
def emitEvent (hasLogger : Bool) (listeners : List (Event → Except String Unit))
    (event : Event) : List LogEntry :=
  listeners.foldl (fun logs listener => logs ++ listenerLog hasLogger event listener) []

/-- The listener-fault logs produced over a whole run's event sequence. -/
def processEvents (hasLogger : Bool) (listeners : List (Event → Except String Unit))
    (events : List Event) : List LogEntry :=
  events.foldl (fun logs event => logs ++ emitEvent hasLogger listeners event) []

/-- A run observed together with its subscribed listeners.  Because
`emitEvent` is total (every listener fault is caught inside `emit`), the
synchronous inline emissions of the source cannot alter the run's control
flow, so the model factors the listener processing out of `run`. -/
def runWithListeners {Input State ActionData Result : Type}
    (opts : IterationOptions Input State ActionData Result) (cfg : ResolvedConfig)
    (elapsedAt : Nat → Nat) (totalElapsed : Nat) (input : Input)
    (hasLogger : Bool) (listeners : List (Event → Except String Unit)) :
    RunOutput State ActionData Result × List LogEntry :=
  let out := run opts cfg elapsedAt totalElapsed input
  (out, processEvents hasLogger listeners out.events)

/-! ## Helper lemmas -/

/-- The operand-wise form of a left fold that appends blocks. -/
theorem foldl_append_block {α β : Type} (g : α → List β) :
    ∀ (ls : List α) (acc : List β),
      List.foldl (fun logs l => logs ++ g l) acc ls =
        acc ++ List.foldl (fun logs l => logs ++ g l) [] ls := by
  intro ls
  induction ls with
  | nil => intro acc; simp
  | cons a ls ih =>
    intro acc
    simp only [List.foldl_cons, List.nil_append]
    rw [ih (acc ++ g a), ih (g a), List.append_assoc]

/-- `emitEvent` distributes over listener-list concatenation: every listener
is processed independently of the others. -/
theorem emitEvent_append (hasLogger : Bool) (event : Event)
    (xs ys : List (Event → Except String Unit)) :
    emitEvent hasLogger (xs ++ ys) event =
      emitEvent hasLogger xs event ++ emitEvent hasLogger ys event := by
  unfold emitEvent
  rw [List.foldl_append, foldl_append_block]

/-- `emitEvent` on a single listener is that listener's fault boundary. -/
theorem emitEvent_single (hasLogger : Bool) (event : Event)
    (f : Event → Except String Unit) :
    emitEvent hasLogger [f] event = listenerLog hasLogger event f := by
  unfold emitEvent
  simp

/-- The running `finalEvaluation` after a block of recorded iterations:
the last evaluation of the block, or the incoming one if the block is
empty. -/
def lastEvalOf {ActionData : Type} (ev : Evaluation) :
    List (IterationHistory ActionData) → Evaluation
  | [] => ev
  | h :: rest => lastEvalOf h.evaluation rest

theorem lastEvalOf_concat {ActionData : Type} (x : IterationHistory ActionData) :
    ∀ (l : List (IterationHistory ActionData)) (ev : Evaluation),
      lastEvalOf ev (l ++ [x]) = x.evaluation := by
  intro l
  induction l with
  | nil => intro ev; rfl
  | cons h rest ih => intro ev; simpa [lastEvalOf] using ih h.evaluation


@[simp] theorem mkContext_iteration (cfg : ResolvedConfig) (e i : Nat) (ev : Evaluation) :
    (mkContext cfg e i ev).iteration = i := rfl

@[simp] theorem mkContext_previousEvaluation (cfg : ResolvedConfig) (e i : Nat)
    (ev : Evaluation) :
    (mkContext cfg e i ev).previousEvaluation = if 0 < i then some ev else none := rfl

/-- Shape of the per-slot data a loop run appends from slot `i` onwards:
history entries and contexts are numbered `i, i+1, …`; the first context
carries the incoming `finalEvaluation` (`none` at slot 0), and the context
of every later slot carries the evaluation recorded by the directly
preceding slot. -/
def SuffixOk {ActionData : Type} (i : Nat) (ev : Evaluation)
    (histSuf : List (IterationHistory ActionData)) (ctxSuf : List IterationContext) : Prop :=
  (∀ m (hm : m < histSuf.length), (histSuf.get ⟨m, hm⟩).iteration = i + m) ∧
  (∀ m (hm : m < ctxSuf.length), (ctxSuf.get ⟨m, hm⟩).iteration = i + m) ∧
  (∀ _hm : 0 < ctxSuf.length,
    (ctxSuf.get ⟨0, by omega⟩).previousEvaluation = if 0 < i then some ev else none) ∧
  (∀ m (hm : m + 1 < ctxSuf.length),
    ∃ hm' : m < histSuf.length,
      (ctxSuf.get ⟨m + 1, hm⟩).previousEvaluation =
        some ((histSuf.get ⟨m, hm'⟩).evaluation))

theorem suffixOk_nil {ActionData : Type} (i : Nat) (ev : Evaluation) :
    SuffixOk i ev ([] : List (IterationHistory ActionData)) [] := by
  refine ⟨?_, ?_, ?_, ?_⟩
  · intro m hm; simp at hm
  · intro m hm; simp at hm
  · intro hm; simp at hm
  · intro m hm; simp at hm

theorem suffixOk_ctx {ActionData : Type} (i : Nat) (ev : Evaluation)
    (cfg : ResolvedConfig) (e : Nat)
    (histSuf : List (IterationHistory ActionData))
    (hiter : ∀ m (hm : m < histSuf.length), (histSuf.get ⟨m, hm⟩).iteration = i + m) :
    SuffixOk i ev histSuf [mkContext cfg e i ev] := by
  refine ⟨hiter, ?_, ?_, ?_⟩
  · intro m hm
    have : m = 0 := by simpa using hm
    subst this
    simp
  · intro _hm
    simp
  · intro m hm
    simp at hm

theorem suffixOk_cons {ActionData : Type} (i : Nat) (ev : Evaluation)
    (cfg : ResolvedConfig) (e : Nat) (entry : IterationHistory ActionData)
    (hentry : entry.iteration = i)
    (hS : List (IterationHistory ActionData)) (cS : List IterationContext)
    (h : SuffixOk (i + 1) entry.evaluation hS cS) :
    SuffixOk i ev (entry :: hS) (mkContext cfg e i ev :: cS) := by
  obtain ⟨h4, h5, h6, h7⟩ := h
  refine ⟨?_, ?_, ?_, ?_⟩
  · intro m hm
    cases m with
    | zero => simpa using hentry
    | succ m =>
      have := h4 m (by simpa using hm)
      simpa [Nat.add_assoc, Nat.add_comm, Nat.add_left_comm] using this
  · intro m hm
    cases m with
    | zero => simp
    | succ m =>
      have := h5 m (by simpa using hm)
      simpa [Nat.add_assoc, Nat.add_comm, Nat.add_left_comm] using this
  · intro _hm
    simp
  · intro m hm
    cases m with
    | zero =>
      have hcs : 0 < cS.length := by simpa using hm
      have := h6 hcs
      exact ⟨by simp, by simpa using this⟩
    | succ m =>
      obtain ⟨hm', hprev⟩ := h7 m (by simpa using hm)
      exact ⟨by simpa using Nat.succ_lt_succ hm', by simpa using hprev⟩

/-- Everything the loop of `IterationProcessor.run` appends beyond its
incoming accumulators satisfies `SuffixOk`, and the outgoing
`finalEvaluation` is the last recorded one (or the incoming one when the
loop recorded nothing). -/
theorem runLoop_suffix {Input State ActionData Result : Type}
    (opts : IterationOptions Input State ActionData Result) (cfg : ResolvedConfig)
    (elapsedAt : Nat → Nat) :
    ∀ (fuel i : Nat) (st : State) (hist : List (IterationHistory ActionData))
      (ev : Evaluation) (events : List Event) (ctxs : List IterationContext),
    ∃ histSuf ctxSuf,
      (runLoop opts cfg elapsedAt fuel i st hist ev events ctxs).hist = hist ++ histSuf ∧
      (runLoop opts cfg elapsedAt fuel i st hist ev events ctxs).ctxs = ctxs ++ ctxSuf ∧
      (runLoop opts cfg elapsedAt fuel i st hist ev events ctxs).lastEval =
        lastEvalOf ev histSuf ∧
      SuffixOk i ev histSuf ctxSuf := by
  intro fuel
  induction fuel with
  | zero =>
    intro i st hist ev events ctxs
    exact ⟨[], [], by simp [runLoop], by simp [runLoop], by simp [runLoop, lastEvalOf],
      suffixOk_nil i ev⟩
  | succ fuel ih =>
    intro i st hist ev events ctxs
    cases htime : cfg.timeout.any (fun t => t != 0 && decide (elapsedAt i > t)) with
    | true =>
      exact ⟨[], [], by simp [runLoop, htime], by simp [runLoop, htime],
        by simp [runLoop, htime, lastEvalOf], suffixOk_nil i ev⟩
    | false =>
      cases hact : opts.act st (mkContext cfg (elapsedAt i) i ev) with
      | error e =>
        exact ⟨[], [mkContext cfg (elapsedAt i) i ev],
          by simp [runLoop, htime, hact],
          by simp [runLoop, htime, hact],
          by simp [runLoop, htime, hact, lastEvalOf],
          suffixOk_ctx i ev cfg (elapsedAt i) [] (by intro m hm; simp at hm)⟩
      | ok actionResult =>
        cases heval : opts.evaluate st actionResult (mkContext cfg (elapsedAt i) i ev) with
        | error e =>
          exact ⟨[], [mkContext cfg (elapsedAt i) i ev],
            by simp [runLoop, htime, hact, heval],
            by simp [runLoop, htime, hact, heval],
            by simp [runLoop, htime, hact, heval, lastEvalOf],
            suffixOk_ctx i ev cfg (elapsedAt i) [] (by intro m hm; simp at hm)⟩
        | ok evaluation =>
          cases hterm : checkTermination opts cfg st evaluation
              (mkContext cfg (elapsedAt i) i ev) i with
          | error e =>
            refine ⟨[{ iteration := i, actionResult := actionResult,
                       evaluation := evaluation, timestamp := elapsedAt i, duration := 0 }],
                    [mkContext cfg (elapsedAt i) i ev],
                    by simp [runLoop, htime, hact, heval, hterm],
                    by simp [runLoop, htime, hact, heval, hterm],
                    by simp [runLoop, htime, hact, heval, hterm, lastEvalOf],
                    suffixOk_ctx i ev cfg (elapsedAt i) _ ?_⟩
            intro m hm
            have : m = 0 := by simpa using hm
            subst this
            rfl
          | ok td =>
            cases htr : transitionInvoked td.terminate (i == cfg.maxIterations - 1)
                cfg.alwaysRunTransition with
            | true =>
              cases htrans : opts.transition st actionResult evaluation
                  (mkContext cfg (elapsedAt i) i ev) with
              | error e =>
                refine ⟨[{ iteration := i, actionResult := actionResult,
                           evaluation := evaluation, timestamp := elapsedAt i, duration := 0 }],
                        [mkContext cfg (elapsedAt i) i ev],
                        by simp [runLoop, htime, hact, heval, hterm, htr, htrans],
                        by simp [runLoop, htime, hact, heval, hterm, htr, htrans],
                        by simp [runLoop, htime, hact, heval, hterm, htr, htrans, lastEvalOf],
                        suffixOk_ctx i ev cfg (elapsedAt i) _ ?_⟩
                intro m hm
                have : m = 0 := by simpa using hm
                subst this
                rfl
              | ok state' =>
                cases hstop : td.terminate with
                | true =>
                  have htr2 := htr
                  rw [hstop] at htr2
                  refine ⟨[{ iteration := i, actionResult := actionResult,
                             evaluation := evaluation, timestamp := elapsedAt i, duration := 0 }],
                          [mkContext cfg (elapsedAt i) i ev],
                          by simp [runLoop, htime, hact, heval, hterm, htr2, htrans, hstop],
                          by simp [runLoop, htime, hact, heval, hterm, htr2, htrans, hstop],
                          by simp [runLoop, htime, hact, heval, hterm, htr2, htrans, hstop,
                            lastEvalOf],
                          suffixOk_ctx i ev cfg (elapsedAt i) _ ?_⟩
                  intro m hm
                  have : m = 0 := by simpa using hm
                  subst this
                  rfl
                | false =>
                  obtain ⟨hS, cS, h1, h2, h3, h4⟩ :=
                    ih (i + 1) state'
                      (hist ++ [{ iteration := i, actionResult := actionResult,
                                  evaluation := evaluation, timestamp := elapsedAt i,
                                  duration := 0 }])
                      evaluation
                      (events ++ [Event.iteration_start i, Event.action_complete i,
                        Event.evaluation_complete i, Event.iteration_complete i,
                        Event.transition_complete i])
                      (ctxs ++ [mkContext cfg (elapsedAt i) i ev])
                  have hrun : runLoop opts cfg elapsedAt (fuel + 1) i st hist ev events ctxs =
                      runLoop opts cfg elapsedAt fuel (i + 1) state'
                        (hist ++ [{ iteration := i, actionResult := actionResult,
                                    evaluation := evaluation, timestamp := elapsedAt i,
                                    duration := 0 }])
                        evaluation
                        (events ++ [Event.iteration_start i, Event.action_complete i,
                          Event.evaluation_complete i, Event.iteration_complete i,
                          Event.transition_complete i])
                        (ctxs ++ [mkContext cfg (elapsedAt i) i ev]) := by
                    have htr2 := htr
                    rw [hstop] at htr2
                    simp [runLoop, htime, hact, heval, hterm, htr2, htrans, hstop]
                  refine ⟨{ iteration := i, actionResult := actionResult,
                            evaluation := evaluation, timestamp := elapsedAt i,
                            duration := 0 } :: hS,
                          mkContext cfg (elapsedAt i) i ev :: cS, ?_, ?_, ?_, ?_⟩
                  · rw [hrun, h1]; simp
                  · rw [hrun, h2]; simp
                  · rw [hrun, h3]; rfl
                  · exact suffixOk_cons i ev cfg (elapsedAt i) _ rfl hS cS h4
            | false =>
              cases hstop : td.terminate with
              | true =>
                have htr2 := htr
                rw [hstop] at htr2
                refine ⟨[{ iteration := i, actionResult := actionResult,
                           evaluation := evaluation, timestamp := elapsedAt i, duration := 0 }],
                        [mkContext cfg (elapsedAt i) i ev],
                        by simp [runLoop, htime, hact, heval, hterm, htr2, hstop],
                        by simp [runLoop, htime, hact, heval, hterm, htr2, hstop],
                        by simp [runLoop, htime, hact, heval, hterm, htr2, hstop, lastEvalOf],
                        suffixOk_ctx i ev cfg (elapsedAt i) _ ?_⟩
                intro m hm
                have : m = 0 := by simpa using hm
                subst this
                rfl
              | false =>
                obtain ⟨hS, cS, h1, h2, h3, h4⟩ :=
                  ih (i + 1) st
                    (hist ++ [{ iteration := i, actionResult := actionResult,
                                evaluation := evaluation, timestamp := elapsedAt i,
                                duration := 0 }])
                    evaluation
                    (events ++ [Event.iteration_start i, Event.action_complete i,
                      Event.evaluation_complete i, Event.iteration_complete i])
                    (ctxs ++ [mkContext cfg (elapsedAt i) i ev])
                have hrun : runLoop opts cfg elapsedAt (fuel + 1) i st hist ev events ctxs =
                    runLoop opts cfg elapsedAt fuel (i + 1) st
                      (hist ++ [{ iteration := i, actionResult := actionResult,
                                  evaluation := evaluation, timestamp := elapsedAt i,
                                  duration := 0 }])
                      evaluation
                      (events ++ [Event.iteration_start i, Event.action_complete i,
                        Event.evaluation_complete i, Event.iteration_complete i])
                      (ctxs ++ [mkContext cfg (elapsedAt i) i ev]) := by
                  have htr2 := htr
                  rw [hstop] at htr2
                  simp [runLoop, htime, hact, heval, hterm, htr2, hstop]
                refine ⟨{ iteration := i, actionResult := actionResult,
                          evaluation := evaluation, timestamp := elapsedAt i,
                          duration := 0 } :: hS,
                        mkContext cfg (elapsedAt i) i ev :: cS, ?_, ?_, ?_, ?_⟩
                · rw [hrun, h1]; simp
                · rw [hrun, h2]; simp
                · rw [hrun, h3]; rfl
                · exact suffixOk_cons i ev cfg (elapsedAt i) _ rfl hS cS h4

theorem emitEvent_cons (hasLogger : Bool) (event : Event)
    (f : Event → Except String Unit) (post : List (Event → Except String Unit)) :
    emitEvent hasLogger (f :: post) event =
      listenerLog hasLogger event f ++ emitEvent hasLogger post event := by
  unfold emitEvent
  simp only [List.foldl_cons, List.nil_append]
  rw [foldl_append_block]

theorem finishRun_ctxs {Input State ActionData Result : Type}
    (opts : IterationOptions Input State ActionData Result) (cfg : ResolvedConfig)
    (totalElapsed : Nat) (o : LoopOut State ActionData) :
    (finishRun opts cfg totalElapsed o).ctxs = o.ctxs := by
  unfold finishRun
  split
  · unfold recover
    split <;> rfl
  · split
    · unfold recover
      split <;> rfl
    · rfl

theorem foldl_add_eq_sum {α : Type} (f : α → Int) :
    ∀ (l : List α) (a : Int), List.foldl (fun s x => s + f x) a l = a + (l.map f).sum := by
  intro l
  induction l with
  | nil => intro a; simp
  | cons x l ih => intro a; simp [ih, add_assoc]

/-- Spec-side reading of `finalScore`: the last recorded evaluation's score,
or `0` when no iteration ran. -/
def finalScoreSpec {ActionData : Type} (hist : List (IterationHistory ActionData)) : Int :=
  match hist.getLast? with
  | some h => h.evaluation.score
  | none => 0

/-- Spec-side reading of `totalCost`: the sum over the history of
`actionResult.metadata.cost`, with an absent cost read as `0`. -/
def sumCosts {ActionData : Type} (hist : List (IterationHistory ActionData)) : Int :=
  (hist.map (fun h => (h.actionResult.metadata.bind (fun m => m.cost)).getD 0)).sum

theorem totalCostOf_eq_sumCosts {ActionData : Type}
    (hist : List (IterationHistory ActionData)) :
    totalCostOf hist = sumCosts hist := by
  unfold totalCostOf sumCosts
  rw [foldl_add_eq_sum]
  simp

theorem lastEvalOf_initial_score {ActionData : Type}
    (hist : List (IterationHistory ActionData)) :
    (lastEvalOf initialEvaluation hist).score = finalScoreSpec hist := by
  rcases List.eq_nil_or_concat hist with h | ⟨l, x, h⟩
  · subst h; rfl
  · subst h
    rw [List.concat_eq_append, lastEvalOf_concat]
    simp [finalScoreSpec]

/-! ## Claims -/

/-- C1: for every evaluation, 0-based iteration index and config, the batch
termination decision follows the fixed precedence: a custom `shouldTerminate`
returning true gives `manual_stop`; otherwise `score >= earlyStopScore`
gives `early_stop` (independent of the minimum-iteration floor); otherwise
`shouldContinue = false` gives `converged`; otherwise
`score >= targetScore` with the minimum-iteration floor met (or waived by
`skipMinIterations`) gives `converged`; otherwise the iteration does not
terminate the loop. -/
theorem c1_termination_precedence (cfg : ResolvedConfig) (evaluation : Evaluation)
    (i : Nat) (custom : Bool) :
    (custom = true →
      checkTerminationWith custom evaluation i cfg =
        { terminate := true, reason := .manual_stop }) ∧
    (custom = false → evaluation.score ≥ cfg.earlyStopScore →
      checkTerminationWith custom evaluation i cfg =
        { terminate := true, reason := .early_stop }) ∧
    (custom = false → evaluation.score < cfg.earlyStopScore →
      evaluation.shouldContinue = false →
      checkTerminationWith custom evaluation i cfg =
        { terminate := true, reason := .converged }) ∧
    (custom = false → evaluation.score < cfg.earlyStopScore →
      evaluation.shouldContinue = true → evaluation.score ≥ cfg.targetScore →
      (i ≥ cfg.minIterations - 1 ∨ cfg.skipMinIterations = true) →
      checkTerminationWith custom evaluation i cfg =
        { terminate := true, reason := .converged }) ∧
    (custom = false → evaluation.score < cfg.earlyStopScore →
      evaluation.shouldContinue = true →
      (evaluation.score < cfg.targetScore ∨
        (i < cfg.minIterations - 1 ∧ cfg.skipMinIterations = false)) →
      (checkTerminationWith custom evaluation i cfg).terminate = false) ∧
    (∀ {Input State ActionData Result : Type}
      (opts : IterationOptions Input State ActionData Result) (st : State)
      (ctx : IterationContext)
      (f : State → Evaluation → IterationContext → Except String Bool),
      opts.shouldTerminate = some f → f st evaluation ctx = .ok custom →
      checkTermination opts cfg st evaluation ctx i =
        .ok (checkTerminationWith custom evaluation i cfg)) := by
  refine ⟨?_, ?_, ?_, ?_, ?_, ?_⟩
  · intro h; subst h; simp [checkTerminationWith]
  · intro h hs; subst h; simp [checkTerminationWith, hs]
  · intro h hs hc; subst h
    simp [checkTerminationWith, not_le.mpr hs, hc]
  · intro h hs hc ht hmin; subst h
    rcases hmin with hge | hskip
    · simp [checkTerminationWith, not_le.mpr hs, hc, ht, hge]
    · simp [checkTerminationWith, not_le.mpr hs, hc, ht, hskip]
  · intro h hs hc hno; subst h
    rcases hno with hlt | ⟨hmin, hskip⟩
    · simp [checkTerminationWith, not_le.mpr hs, hc, not_le.mpr hlt]
    · simp [checkTerminationWith, not_le.mpr hs, hc, Nat.not_le.mpr hmin, hskip]
  · intro Input State ActionData Result opts st ctx f hsome hf
    simp [checkTermination, hsome, hf]

/-- C1 witness: the precedence evaluated at concrete inputs. -/
theorem c1_witness :
    checkTerminationWith true { score := 50, shouldContinue := true } 0 resetConfig =
      { terminate := true, reason := .manual_stop } ∧
    checkTerminationWith false { score := 96, shouldContinue := true } 0 resetConfig =
      { terminate := true, reason := .early_stop } ∧
    checkTerminationWith false { score := 80, shouldContinue := true } 0 resetConfig =
      { terminate := true, reason := .converged } :=
  ⟨(c1_termination_precedence resetConfig { score := 50, shouldContinue := true } 0 true).1 rfl,
   (c1_termination_precedence resetConfig { score := 96, shouldContinue := true } 0 false).2.1
     rfl (by decide),
   (c1_termination_precedence resetConfig { score := 80, shouldContinue := true } 0 false).2.2.2.1
     rfl (by decide) rfl (by decide) (Or.inl (by decide))⟩

/-- C2: the transition phase of the batch controller is invoked exactly when
`NOT((terminating OR isLastIteration) AND NOT alwaysRunTransition)`; with
the default `alwaysRunTransition = false` this is `!terminating && !isLast`
(the transition after a terminating or final iteration is skipped), and
with `alwaysRunTransition = true` the transition runs on every iteration. -/
theorem c2_transition_gate :
    ∀ (terminating isLastIteration alwaysRunTransition : Bool),
      transitionInvoked terminating isLastIteration alwaysRunTransition =
        !((terminating || isLastIteration) && !alwaysRunTransition) ∧
      transitionInvoked terminating isLastIteration false =
        (!terminating && !isLastIteration) ∧
      transitionInvoked terminating isLastIteration true = true := by
  decide

/-- C6: construction and update with `minIterations > maxIterations` (after
defaults and the existing config are applied) always fail with the
validation error, and a failed update leaves the live config exactly as it
was, observable through `getConfig`. -/
theorem c6_config_validation (current : ResolvedConfig) (config : IterationConfig) :
    (config.minIterations.getD 1 > config.maxIterations.getD 5 →
      resolveConfig config =
        .error "Invalid configuration: minIterations cannot be greater than maxIterations") ∧
    (config.minIterations.getD current.minIterations >
        config.maxIterations.getD current.maxIterations →
      updateConfig current config =
        (current,
          some "Invalid configuration: minIterations cannot be greater than maxIterations") ∧
      getConfig (updateConfig current config).1 = getConfig current) := by
  constructor
  · intro h
    simp [resolveConfig, h]
  · intro h
    refine ⟨?_, ?_⟩ <;> simp [updateConfig, h, getConfig]

/-- C6 witness: `minIterations = 6` against the default `maxIterations = 5`. -/
theorem c6_witness :
    resolveConfig { minIterations := some 6 } =
      .error "Invalid configuration: minIterations cannot be greater than maxIterations" ∧
    updateConfig resetConfig { minIterations := some 6 } =
      (resetConfig,
        some "Invalid configuration: minIterations cannot be greater than maxIterations") :=
  ⟨(c6_config_validation resetConfig { minIterations := some 6 }).1 (by decide),
   ((c6_config_validation resetConfig { minIterations := some 6 }).2 (by decide)).1⟩

/-- C9: `createEvaluation` clamps every score into `[0, 100]`; in
particular `-10` clamps to `0` and `150` clamps to `100`. -/
theorem c9_score_clamping :
    ∀ (s : Int) (options : EvaluationOptions),
      0 ≤ (createEvaluation s options).score ∧
      (createEvaluation s options).score ≤ 100 ∧
      (createEvaluation (-10)).score = 0 ∧
      (createEvaluation 150).score = 100 := by
  intro s options
  refine ⟨?_, ?_, by decide, by decide⟩
  · exact le_max_left 0 _
  · exact max_le (by norm_num) (min_le_left _ _)

/-- A concrete oracle for witnesses: act reports the state with cost 2, the
evaluation score grows with the state and the iteration index, transition
increments the state. -/
def demoOpts : IterationOptions Nat Nat Nat Nat :=
  { initializeFn := fun n => .ok n
    act := fun s _ => .ok { data := s, metadata := some { cost := some 2 } }
    evaluate := fun s _ ctx =>
      .ok { score := (s : Int) + 10 * (ctx.iteration : Int), shouldContinue := true }
    transition := fun s _ _ _ => .ok (s + 1)
    finalize := fun s h => .ok (s * 100 + h.length) }

theorem runLoop_timeout_stop {Input State ActionData Result : Type}
    (opts : IterationOptions Input State ActionData Result) (cfg : ResolvedConfig)
    (elapsedAt : Nat → Nat) (t : Nat)
    (ht : cfg.timeout = some t) (htnz : t ≠ 0) :
    ∀ (fuel i : Nat) (st : State) (hist : List (IterationHistory ActionData))
      (ev : Evaluation) (events : List Event) (ctxs : List IterationContext),
      0 < fuel → elapsedAt i > t →
      runLoop opts cfg elapsedAt fuel i st hist ev events ctxs =
        { outcome := .ok (.timeout, st), hist := hist, lastEval := ev
          events := events, ctxs := ctxs } := by
  intro fuel i st hist ev events ctxs hfuel helapsed
  obtain ⟨k, rfl⟩ := Nat.exists_eq_succ_of_ne_zero (Nat.pos_iff_ne_zero.mp hfuel)
  have hcond : (cfg.timeout.any fun x => x != 0 && decide (elapsedAt i > x)) = true := by
    rw [ht]
    simp [htnz, helapsed]
  simp [runLoop, hcond]

/-- C5 counterexample: with `timeout` configured as `0` and elapsed time `5`
exceeding it at the very first slot, the run does not stop with `timeout`:
it runs to convergence and emits `iteration_start` for slot 0 (the
JavaScript truthiness guard `if (this.config.timeout && …)` disables a zero
timeout). -/
theorem c5_counterexample :
    ({ resetConfig with timeout := some 0 } : ResolvedConfig).timeout = some 0 ∧
    (fun _ : Nat => 5) 0 > 0 ∧
    ((run demoOpts { resetConfig with timeout := some 0 } (fun _ => 5) 5 30).outcome.toOption.map
        (fun r => r.terminationReason)) = some TermReason.converged ∧
    Event.iteration_start 0 ∈
      (run demoOpts { resetConfig with timeout := some 0 } (fun _ => 5) 5 30).events := by
  refine ⟨rfl, by decide, by decide, by decide⟩

/-- C5 (amended): for every batch run with a nonzero timeout configured, if
at the start of an iteration slot the elapsed time exceeds the timeout, the
loop stops there with reason `timeout` before calling `act`, appends
nothing (so `iterations` counts only the slots completed strictly before),
emits no `iteration_start` for the aborted slot, and no exception is
raised; in particular a run whose very first slot is overrun (initialize
itself overran) reports `iterations = 0`. -/
theorem c5_timeout_amended {Input State ActionData Result : Type}
    (opts : IterationOptions Input State ActionData Result) (cfg : ResolvedConfig)
    (elapsedAt : Nat → Nat) (t : Nat)
    (ht : cfg.timeout = some t) (htnz : t ≠ 0) :
    (∀ (fuel i : Nat) (st : State) (hist : List (IterationHistory ActionData))
      (ev : Evaluation) (events : List Event) (ctxs : List IterationContext),
      0 < fuel → elapsedAt i > t →
      runLoop opts cfg elapsedAt fuel i st hist ev events ctxs =
        { outcome := .ok (.timeout, st), hist := hist, lastEval := ev
          events := events, ctxs := ctxs }) ∧
    (∀ (totalElapsed : Nat) (input : Input) (st0 : State) (res : Result),
      opts.initializeFn input = .ok st0 → 0 < cfg.maxIterations → elapsedAt 0 > t →
      opts.finalize st0 [] = .ok res →
      ∃ r, (run opts cfg elapsedAt totalElapsed input).outcome = .ok r ∧
        r.terminationReason = .timeout ∧
        r.iterations = 0 ∧
        (run opts cfg elapsedAt totalElapsed input).events = [Event.start, Event.complete] ∧
        Event.iteration_start 0 ∉ (run opts cfg elapsedAt totalElapsed input).events) := by
  constructor
  · exact runLoop_timeout_stop opts cfg elapsedAt t ht htnz
  · intro totalElapsed input st0 res hinit hmax helapsed hfin
    have hloop :
        batchLoop opts cfg elapsedAt st0 =
          { outcome := .ok (.timeout, st0), hist := [], lastEval := initialEvaluation
            events := [Event.start], ctxs := [] } := by
      unfold batchLoop
      exact runLoop_timeout_stop opts cfg elapsedAt t ht htnz cfg.maxIterations 0 st0 []
        initialEvaluation [Event.start] [] hmax helapsed
    have hrun : run opts cfg elapsedAt totalElapsed input =
        finishRun opts cfg totalElapsed (batchLoop opts cfg elapsedAt st0) := by
      simp [run, hinit]
    rw [hloop] at hrun
    have hfr : run opts cfg elapsedAt totalElapsed input =
        { events := [Event.start, Event.complete], ctxs := []
          outcome := .ok {
            result := res, iterations := 0, finalScore := 0
            converged := decide ((0 : Int) ≥ cfg.targetScore)
            terminationReason := .timeout, totalCost := 0
            totalLatency := totalElapsed, history := [] } } := by
      rw [hrun]
      simp [finishRun, hfin, initialEvaluation, totalCostOf]
    refine ⟨{ result := res, iterations := 0, finalScore := 0
              converged := decide ((0 : Int) ≥ cfg.targetScore)
              terminationReason := .timeout, totalCost := 0
              totalLatency := totalElapsed, history := [] }, ?_, ?_, ?_, ?_, ?_⟩
    · rw [hfr]
    · rfl
    · rfl
    · rw [hfr]
    · rw [hfr]
      simp

/-- C5 witness: a nonzero timeout of 3 overrun by elapsed time 5 stops the
demo run with reason `timeout` after zero iterations. -/
theorem c5_witness :
    ∃ r, (run demoOpts { resetConfig with timeout := some 3 } (fun _ => 5) 9 30).outcome =
        .ok r ∧
      r.terminationReason = .timeout ∧
      r.iterations = 0 ∧
      (run demoOpts { resetConfig with timeout := some 3 } (fun _ => 5) 9 30).events =
        [Event.start, Event.complete] ∧
      Event.iteration_start 0 ∉
        (run demoOpts { resetConfig with timeout := some 3 } (fun _ => 5) 9 30).events :=
  (c5_timeout_amended demoOpts { resetConfig with timeout := some 3 } (fun _ => 5) 3 rfl
      (by decide)).2 9 30 30 3000 rfl (by decide) (by decide) rfl

/-- C8: for every batch run whose loop and `finalize` complete normally
(any termination reason, `max_iterations` and `timeout` included),
`finalScore` is the last recorded evaluation's score (0 if no iteration
ran), `converged` holds exactly when `finalScore >= targetScore`, and
`totalCost` is the sum over the history of `actionResult.metadata.cost`
with absent costs read as 0. -/
theorem c8_result_assembly {Input State ActionData Result : Type}
    (opts : IterationOptions Input State ActionData Result) (cfg : ResolvedConfig)
    (elapsedAt : Nat → Nat) (totalElapsed : Nat) (input : Input) (st0 : State)
    (reason : TermReason) (stF : State) (res : Result)
    (hinit : opts.initializeFn input = .ok st0)
    (hloop : (batchLoop opts cfg elapsedAt st0).outcome = .ok (reason, stF))
    (hfin : opts.finalize stF (batchLoop opts cfg elapsedAt st0).hist = .ok res) :
    ∃ r, (run opts cfg elapsedAt totalElapsed input).outcome = .ok r ∧
      r.terminationReason = reason ∧
      r.iterations = r.history.length ∧
      r.finalScore = finalScoreSpec r.history ∧
      (r.converged = true ↔ cfg.targetScore ≤ r.finalScore) ∧
      r.totalCost = sumCosts r.history := by
  obtain ⟨histSuf, ctxSuf, h1, h2, h3, h4⟩ :=
    runLoop_suffix opts cfg elapsedAt cfg.maxIterations 0 st0 [] initialEvaluation
      [Event.start] []
  have hh : (batchLoop opts cfg elapsedAt st0).hist = histSuf := by
    unfold batchLoop; simpa using h1
  have hl : (batchLoop opts cfg elapsedAt st0).lastEval = lastEvalOf initialEvaluation histSuf := by
    unfold batchLoop; simpa using h3
  have hrun : run opts cfg elapsedAt totalElapsed input =
      finishRun opts cfg totalElapsed (batchLoop opts cfg elapsedAt st0) := by
    simp [run, hinit]
  refine ⟨{ result := res
            iterations := (batchLoop opts cfg elapsedAt st0).hist.length
            finalScore := (batchLoop opts cfg elapsedAt st0).lastEval.score
            converged :=
              decide ((batchLoop opts cfg elapsedAt st0).lastEval.score ≥ cfg.targetScore)
            terminationReason := reason
            totalCost := totalCostOf (batchLoop opts cfg elapsedAt st0).hist
            totalLatency := totalElapsed
            history := (batchLoop opts cfg elapsedAt st0).hist }, ?_, rfl, rfl, ?_, ?_, ?_⟩
  · rw [hrun]
    unfold finishRun
    rw [hloop]
    dsimp only
    rw [hfin]
  · show (batchLoop opts cfg elapsedAt st0).lastEval.score =
      finalScoreSpec (batchLoop opts cfg elapsedAt st0).hist
    rw [hl, hh]
    exact lastEvalOf_initial_score histSuf
  · show decide ((batchLoop opts cfg elapsedAt st0).lastEval.score ≥ cfg.targetScore) = true ↔
      cfg.targetScore ≤ (batchLoop opts cfg elapsedAt st0).lastEval.score
    simp [ge_iff_le]
  · exact totalCostOf_eq_sumCosts _

/-- C8 witness: a one-iteration demo run converging immediately. -/
theorem c8_witness :
    ∃ r, (run demoOpts { resetConfig with maxIterations := 1 } (fun _ => 0) 9 80).outcome =
        .ok r ∧
      r.terminationReason = .converged ∧
      r.iterations = r.history.length ∧
      r.finalScore = finalScoreSpec r.history ∧
      (r.converged = true ↔
        ({ resetConfig with maxIterations := 1 } : ResolvedConfig).targetScore ≤ r.finalScore) ∧
      r.totalCost = sumCosts r.history :=
  c8_result_assembly demoOpts { resetConfig with maxIterations := 1 } (fun _ => 0) 9 80 80
    .converged 80 8001 rfl rfl rfl

/-- C10: in every batch run, the context the loop hands to `act`,
`evaluate` and `transition` at iteration index `i` carries
`previousEvaluation = undefined` when `i = 0` and the evaluation produced
by the `evaluate` phase of iteration `i - 1` when `i > 0`. -/
theorem c10_previous_evaluation {Input State ActionData Result : Type}
    (opts : IterationOptions Input State ActionData Result) (cfg : ResolvedConfig)
    (elapsedAt : Nat → Nat) (totalElapsed : Nat) (input : Input) (st0 : State)
    (hinit : opts.initializeFn input = .ok st0) :
    (run opts cfg elapsedAt totalElapsed input).ctxs =
      (batchLoop opts cfg elapsedAt st0).ctxs ∧
    (∀ ctx, (batchLoop opts cfg elapsedAt st0).ctxs.get? 0 = some ctx →
      ctx.iteration = 0 ∧ ctx.previousEvaluation = none) ∧
    (∀ m ctx, (batchLoop opts cfg elapsedAt st0).ctxs.get? (m + 1) = some ctx →
      ctx.iteration = m + 1 ∧
      ∃ h, (batchLoop opts cfg elapsedAt st0).hist.get? m = some h ∧
        ctx.previousEvaluation = some h.evaluation ∧ h.iteration = m) := by
  obtain ⟨histSuf, ctxSuf, h1, h2, h3, s1, s2, s3, s4⟩ :=
    runLoop_suffix opts cfg elapsedAt cfg.maxIterations 0 st0 [] initialEvaluation
      [Event.start] []
  have hh : (batchLoop opts cfg elapsedAt st0).hist = histSuf := by
    unfold batchLoop; simpa using h1
  have hc : (batchLoop opts cfg elapsedAt st0).ctxs = ctxSuf := by
    unfold batchLoop; simpa using h2
  refine ⟨?_, ?_, ?_⟩
  · have : run opts cfg elapsedAt totalElapsed input =
        finishRun opts cfg totalElapsed (batchLoop opts cfg elapsedAt st0) := by
      simp [run, hinit]
    rw [this]
    exact finishRun_ctxs opts cfg totalElapsed (batchLoop opts cfg elapsedAt st0)
  · intro ctx hget
    rw [hc] at hget
    obtain ⟨hlt, hEq⟩ := List.get?_eq_some.mp hget
    rw [← hEq]
    exact ⟨by simpa using s2 0 hlt, by simpa using s3 hlt⟩
  · intro m ctx hget
    rw [hc] at hget
    obtain ⟨hlt, hEq⟩ := List.get?_eq_some.mp hget
    obtain ⟨hm', hprev⟩ := s4 m hlt
    rw [hh]
    refine ⟨?_, histSuf.get ⟨m, hm'⟩, ?_, ?_, ?_⟩
    · rw [← hEq]; simpa using s2 (m + 1) hlt
    · exact List.get?_eq_get hm'
    · rw [← hEq]; exact hprev
    · simpa using s1 m hm'

/-- C10 witness: the previous-evaluation chaining on a concrete demo run. -/
theorem c10_witness :
    (run demoOpts resetConfig (fun _ => 0) 7 30).ctxs =
      (batchLoop demoOpts resetConfig (fun _ => 0) 30).ctxs ∧
    (∀ ctx, (batchLoop demoOpts resetConfig (fun _ => 0) 30).ctxs.get? 0 = some ctx →
      ctx.iteration = 0 ∧ ctx.previousEvaluation = none) ∧
    (∀ m ctx, (batchLoop demoOpts resetConfig (fun _ => 0) 30).ctxs.get? (m + 1) = some ctx →
      ctx.iteration = m + 1 ∧
      ∃ h, (batchLoop demoOpts resetConfig (fun _ => 0) 30).hist.get? m = some h ∧
        ctx.previousEvaluation = some h.evaluation ∧ h.iteration = m) :=
  c10_previous_evaluation demoOpts resetConfig (fun _ => 0) 7 30 30 rfl

/-- C4: whenever a phase (`initialize`, a loop phase, `finalize`) or the
custom `shouldTerminate` callback throws, the `error` event is emitted;
with an `onError` handler configured the run resolves to a fallback Result
whose `result` is the handler's return value, with
`terminationReason = manual_stop`, `converged = false`, and
`iterations`/`totalCost` computed from the history collected before the
failure, the handler receiving the error, the last known state (`none`
when `initialize` failed) and a context whose `iteration` is the number of
completed iterations; without a handler the original error is rethrown and
no Result is produced.  Failures inside the loop (act, evaluate,
shouldTerminate, transition) surface as `.error` outcomes of `batchLoop`. -/
theorem c4_error_handling {Input State ActionData Result : Type}
    (opts : IterationOptions Input State ActionData Result) (cfg : ResolvedConfig)
    (elapsedAt : Nat → Nat) (totalElapsed : Nat) (input : Input) :
    (∀ e handler, opts.initializeFn input = .error e → opts.onError = some handler →
      run opts cfg elapsedAt totalElapsed input =
        { events := [Event.start, Event.error 0], ctxs := []
          outcome := .ok {
            result := handler e none
              { iteration := 0, maxIterations := cfg.maxIterations
                elapsedTime := totalElapsed, previousEvaluation := some initialEvaluation }
            iterations := 0, finalScore := 0, converged := false
            terminationReason := .manual_stop, totalCost := 0
            totalLatency := totalElapsed, history := [] } }) ∧
    (∀ e, opts.initializeFn input = .error e → opts.onError = none →
      run opts cfg elapsedAt totalElapsed input =
        { events := [Event.start, Event.error 0], ctxs := [], outcome := .error e }) ∧
    (∀ st0 e stOpt handler, opts.initializeFn input = .ok st0 →
      (batchLoop opts cfg elapsedAt st0).outcome = .error (e, stOpt) →
      opts.onError = some handler →
      run opts cfg elapsedAt totalElapsed input =
        { events := (batchLoop opts cfg elapsedAt st0).events ++
            [Event.error (batchLoop opts cfg elapsedAt st0).hist.length]
          ctxs := (batchLoop opts cfg elapsedAt st0).ctxs
          outcome := .ok {
            result := handler e stOpt
              { iteration := (batchLoop opts cfg elapsedAt st0).hist.length
                maxIterations := cfg.maxIterations
                elapsedTime := totalElapsed
                previousEvaluation := some (batchLoop opts cfg elapsedAt st0).lastEval }
            iterations := (batchLoop opts cfg elapsedAt st0).hist.length
            finalScore := (batchLoop opts cfg elapsedAt st0).lastEval.score
            converged := false
            terminationReason := .manual_stop
            totalCost := totalCostOf (batchLoop opts cfg elapsedAt st0).hist
            totalLatency := totalElapsed
            history := (batchLoop opts cfg elapsedAt st0).hist } }) ∧
    (∀ st0 e stOpt, opts.initializeFn input = .ok st0 →
      (batchLoop opts cfg elapsedAt st0).outcome = .error (e, stOpt) →
      opts.onError = none →
      run opts cfg elapsedAt totalElapsed input =
        { events := (batchLoop opts cfg elapsedAt st0).events ++
            [Event.error (batchLoop opts cfg elapsedAt st0).hist.length]
          ctxs := (batchLoop opts cfg elapsedAt st0).ctxs
          outcome := .error e }) ∧
    (∀ st0 reason stF e handler, opts.initializeFn input = .ok st0 →
      (batchLoop opts cfg elapsedAt st0).outcome = .ok (reason, stF) →
      opts.finalize stF (batchLoop opts cfg elapsedAt st0).hist = .error e →
      opts.onError = some handler →
      run opts cfg elapsedAt totalElapsed input =
        { events := (batchLoop opts cfg elapsedAt st0).events ++
            [Event.error (batchLoop opts cfg elapsedAt st0).hist.length]
          ctxs := (batchLoop opts cfg elapsedAt st0).ctxs
          outcome := .ok {
            result := handler e (some stF)
              { iteration := (batchLoop opts cfg elapsedAt st0).hist.length
                maxIterations := cfg.maxIterations
                elapsedTime := totalElapsed
                previousEvaluation := some (batchLoop opts cfg elapsedAt st0).lastEval }
            iterations := (batchLoop opts cfg elapsedAt st0).hist.length
            finalScore := (batchLoop opts cfg elapsedAt st0).lastEval.score
            converged := false
            terminationReason := .manual_stop
            totalCost := totalCostOf (batchLoop opts cfg elapsedAt st0).hist
            totalLatency := totalElapsed
            history := (batchLoop opts cfg elapsedAt st0).hist } }) ∧
    (∀ st0 reason stF e, opts.initializeFn input = .ok st0 →
      (batchLoop opts cfg elapsedAt st0).outcome = .ok (reason, stF) →
      opts.finalize stF (batchLoop opts cfg elapsedAt st0).hist = .error e →
      opts.onError = none →
      run opts cfg elapsedAt totalElapsed input =
        { events := (batchLoop opts cfg elapsedAt st0).events ++
            [Event.error (batchLoop opts cfg elapsedAt st0).hist.length]
          ctxs := (batchLoop opts cfg elapsedAt st0).ctxs
          outcome := .error e }) := by
  refine ⟨?_, ?_, ?_, ?_, ?_, ?_⟩
  · intro e handler hinit hhandler
    simp [run, hinit, recover, hhandler, initialEvaluation, totalCostOf]
  · intro e hinit hnone
    simp [run, hinit, recover, hnone]
  · intro st0 e stOpt handler hinit hout hhandler
    have hrun : run opts cfg elapsedAt totalElapsed input =
        finishRun opts cfg totalElapsed (batchLoop opts cfg elapsedAt st0) := by
      simp [run, hinit]
    rw [hrun]
    unfold finishRun
    rw [hout]
    dsimp only
    unfold recover
    rw [hhandler]
  · intro st0 e stOpt hinit hout hnone
    have hrun : run opts cfg elapsedAt totalElapsed input =
        finishRun opts cfg totalElapsed (batchLoop opts cfg elapsedAt st0) := by
      simp [run, hinit]
    rw [hrun]
    unfold finishRun
    rw [hout]
    dsimp only
    unfold recover
    rw [hnone]
  · intro st0 reason stF e handler hinit hout hfin hhandler
    have hrun : run opts cfg elapsedAt totalElapsed input =
        finishRun opts cfg totalElapsed (batchLoop opts cfg elapsedAt st0) := by
      simp [run, hinit]
    rw [hrun]
    unfold finishRun
    rw [hout]
    dsimp only
    rw [hfin]
    dsimp only
    unfold recover
    rw [hhandler]
  · intro st0 reason stF e hinit hout hfin hnone
    have hrun : run opts cfg elapsedAt totalElapsed input =
        finishRun opts cfg totalElapsed (batchLoop opts cfg elapsedAt st0) := by
      simp [run, hinit]
    rw [hrun]
    unfold finishRun
    rw [hout]
    dsimp only
    rw [hfin]
    dsimp only
    unfold recover
    rw [hnone]

/-- A concrete oracle whose `evaluate` throws on the second iteration and
whose `onError` handler encodes the context iteration and last state. -/
def failOpts : IterationOptions Nat Nat Nat Nat :=
  { initializeFn := fun n => .ok n
    act := fun s _ => .ok { data := s }
    evaluate := fun _ _ ctx =>
      if ctx.iteration == 1 then .error "boom"
      else .ok { score := 10, shouldContinue := true }
    transition := fun s _ _ _ => .ok (s + 1)
    finalize := fun s _ => .ok s
    onError := some (fun _ stOpt ctx => ctx.iteration * 1000 + stOpt.getD 0) }

/-- C4 witness: `evaluate` throwing on iteration 1 of a demo run reaches
the handler with one completed iteration and the last known state. -/
theorem c4_witness :
    run failOpts resetConfig (fun _ => 0) 4 30 =
      { events := (batchLoop failOpts resetConfig (fun _ => 0) 30).events ++
          [Event.error (batchLoop failOpts resetConfig (fun _ => 0) 30).hist.length]
        ctxs := (batchLoop failOpts resetConfig (fun _ => 0) 30).ctxs
        outcome := .ok {
          result := (fun (_ : String) (stOpt : Option Nat) (ctx : IterationContext) =>
              ctx.iteration * 1000 + stOpt.getD 0) "boom" (some 31)
            { iteration := (batchLoop failOpts resetConfig (fun _ => 0) 30).hist.length
              maxIterations := resetConfig.maxIterations
              elapsedTime := 4
              previousEvaluation := some (batchLoop failOpts resetConfig (fun _ => 0) 30).lastEval }
          iterations := (batchLoop failOpts resetConfig (fun _ => 0) 30).hist.length
          finalScore := (batchLoop failOpts resetConfig (fun _ => 0) 30).lastEval.score
          converged := false
          terminationReason := .manual_stop
          totalCost := totalCostOf (batchLoop failOpts resetConfig (fun _ => 0) 30).hist
          totalLatency := 4
          history := (batchLoop failOpts resetConfig (fun _ => 0) 30).hist } } :=
  (c4_error_handling failOpts resetConfig (fun _ => 0) 4 30).2.2.1 30 "boom" (some 31)
    (fun (_ : String) (stOpt : Option Nat) (ctx : IterationContext) =>
      ctx.iteration * 1000 + stOpt.getD 0) rfl rfl rfl

/-- C7: a throwing listener is caught inside `emit`: its exception is routed
to the configured logger's error sink (or the console) with the descriptive
prefix, every remaining listener is still invoked, and the run is
unaffected — its outcome does not depend on the listeners, and a normally
completing run (no `onError` fallback involved) still emits `complete`. -/
theorem c7_listener_isolation :
    (∀ (hasLogger : Bool) (event : Event) (pre post : List (Event → Except String Unit))
      (f : Event → Except String Unit) (msg : String), f event = .error msg →
      emitEvent hasLogger (pre ++ f :: post) event =
        emitEvent hasLogger pre event ++
          listenerFault hasLogger msg :: emitEvent hasLogger post event) ∧
    (∀ (hasLogger : Bool) (msg : String),
      (listenerFault hasLogger msg).message = "[IteratoP] Event listener error:" ∧
      (listenerFault hasLogger msg).sink =
        (if hasLogger then LogSink.logger else LogSink.console)) ∧
    (∀ {Input State ActionData Result : Type}
      (opts : IterationOptions Input State ActionData Result) (cfg : ResolvedConfig)
      (elapsedAt : Nat → Nat) (totalElapsed : Nat) (input : Input) (hasLogger : Bool)
      (listeners : List (Event → Except String Unit)),
      (runWithListeners opts cfg elapsedAt totalElapsed input hasLogger listeners).1 =
        run opts cfg elapsedAt totalElapsed input) ∧
    (∀ {Input State ActionData Result : Type}
      (opts : IterationOptions Input State ActionData Result) (cfg : ResolvedConfig)
      (elapsedAt : Nat → Nat) (totalElapsed : Nat) (input : Input)
      (r : IterationResult Result ActionData),
      opts.onError = none →
      (run opts cfg elapsedAt totalElapsed input).outcome = .ok r →
      Event.complete ∈ (run opts cfg elapsedAt totalElapsed input).events) := by
  refine ⟨?_, ?_, ?_, ?_⟩
  · intro hasLogger event pre post f msg hf
    rw [emitEvent_append, emitEvent_cons]
    simp [listenerLog, hf]
  · intro hasLogger msg
    exact ⟨rfl, rfl⟩
  · intro Input State ActionData Result opts cfg elapsedAt totalElapsed input hasLogger listeners
    rfl
  · intro Input State ActionData Result opts cfg elapsedAt totalElapsed input r hnone hok
    unfold run at hok ⊢
    cases hinit : opts.initializeFn input with
    | error e =>
      try rw [hinit] at hok
      dsimp only at hok
      unfold recover at hok
      rw [hnone] at hok
      simp at hok
    | ok st0 =>
      try rw [hinit] at hok
      try rw [hinit]
      dsimp only at hok ⊢
      unfold finishRun at hok ⊢
      cases hout : (batchLoop opts cfg elapsedAt st0).outcome with
      | error p =>
        obtain ⟨e, stOpt⟩ := p
        try rw [hout] at hok
        dsimp only at hok
        unfold recover at hok
        rw [hnone] at hok
        simp at hok
      | ok p =>
        obtain ⟨reason, stF⟩ := p
        try rw [hout] at hok
        try rw [hout]
        dsimp only at hok ⊢
        cases hfin : opts.finalize stF (batchLoop opts cfg elapsedAt st0).hist with
        | error e =>
          try rw [hfin] at hok
          dsimp only at hok
          unfold recover at hok
          rw [hnone] at hok
          simp at hok
        | ok res =>
          try rw [hfin]
          simp

/-- C7 witness: a throwing listener between two others is logged with the
prefix and does not stop the later throwing listener from being invoked;
a normally completing run still has `complete` among its events. -/
theorem c7_witness :
    emitEvent false
        ([fun _ => Except.ok ()] ++
          (fun _ => Except.error "boom") :: [fun _ => Except.error "later"]) Event.start =
      emitEvent false [fun _ => Except.ok ()] Event.start ++
        listenerFault false "boom" ::
          emitEvent false [fun _ => Except.error "later"] Event.start ∧
    Event.complete ∈ (run demoOpts resetConfig (fun _ => 0) 7 30).events :=
  ⟨(c7_listener_isolation).1 false Event.start [fun _ => Except.ok ()]
      [fun _ => Except.error "later"] (fun _ => Except.error "boom") "boom" rfl,
   (c7_listener_isolation).2.2.2 demoOpts resetConfig (fun _ => 0) 7 30
      { result := 3405, iterations := 5, finalScore := 74, converged := true
        terminationReason := .converged, totalCost := 10, totalLatency := 7
        history := (batchLoop demoOpts resetConfig (fun _ => 0) 30).hist } rfl rfl⟩

/-- What holds of the snapshot a streaming iteration numbered `n` (1-based)
emits, unless it is the timeout marker: it is numbered `n`, it records an
evaluation, its `converged` flag is exactly the streaming convergence rule
applied to that evaluation and `n`, and the transition phase ran for it
exactly when it did not converge. -/
def StreamSnapOk {State ActionData : Type} (cfgS : StreamCfg) (n : Nat)
    (s : StreamSnap State ActionData) : Prop :=
  s.snap.timedOut = none →
    s.snap.iteration = n ∧
    s.ranTransition = !s.snap.converged ∧
    ∃ ev, s.snap.evaluation = some ev ∧
      s.snap.converged = streamConverged cfgS ev.score ev.shouldContinue n

theorem executeStreamLoop_suffix {Input State ActionData Result : Type}
    (opts : IterationOptions Input State ActionData Result) (cfgS : StreamCfg)
    (elapsedAt : Nat → Nat) :
    ∀ (fuel k : Nat) (st : State) (history : List (IterationHistory ActionData))
      (snaps : List (StreamSnap State ActionData)) (out : StreamLoopOut State ActionData),
      executeStreamLoop opts cfgS elapsedAt fuel k st history snaps = .ok out →
      ∃ suffix, out.snaps = snaps ++ suffix ∧
        ∀ m (hm : m < suffix.length), StreamSnapOk cfgS (k + 1 + m) (suffix.get ⟨m, hm⟩) := by
  intro fuel
  induction fuel with
  | zero =>
    intro k st history snaps out hout
    simp only [executeStreamLoop, Except.ok.injEq] at hout
    subst hout
    exact ⟨[], by simp, by intro m hm; simp at hm⟩
  | succ fuel ih =>
    intro k st history snaps out hout
    cases htime : cfgS.timeout.any (fun t => t != 0 && decide (elapsedAt k > t)) with
    | true =>
      have hstep : executeStreamLoop opts cfgS elapsedAt (fuel + 1) k st history snaps =
          .ok { snaps := snaps ++ [{
                  snap := { iteration := k + 1, state := st, converged := false
                            timedOut := some true
                            context :=
                              { iteration := k + 1, maxIterations := cfgS.maxIterations
                                elapsedTime := elapsedAt k
                                previousEvaluation :=
                                  (history.getLast?).map (fun h => h.evaluation) } }
                  ranTransition := false }]
                finalState := st, history := history } := by
        simp [executeStreamLoop, htime]
      rw [hstep, Except.ok.injEq] at hout
      subst hout
      refine ⟨_, rfl, ?_⟩
      intro m hm
      have hm0 : m = 0 := by simpa using hm
      subst hm0
      intro habs
      simp at habs
    | false =>
      cases hact : opts.act st
          { iteration := k + 1, maxIterations := cfgS.maxIterations
            elapsedTime := elapsedAt k
            previousEvaluation := (history.getLast?).map (fun h => h.evaluation) } with
      | error e =>
        have hstep : executeStreamLoop opts cfgS elapsedAt (fuel + 1) k st history snaps =
            .error e := by
          simp [executeStreamLoop, htime, hact]
        rw [hstep] at hout
        simp at hout
      | ok actionResult =>
        cases heval : opts.evaluate st actionResult
            { iteration := k + 1, maxIterations := cfgS.maxIterations
              elapsedTime := elapsedAt k
              previousEvaluation := (history.getLast?).map (fun h => h.evaluation) } with
        | error e =>
          have hstep : executeStreamLoop opts cfgS elapsedAt (fuel + 1) k st history snaps =
              .error e := by
            simp [executeStreamLoop, htime, hact, heval]
          rw [hstep] at hout
          simp at hout
        | ok evaluation =>
          cases hconv : streamConverged cfgS evaluation.score evaluation.shouldContinue
              (k + 1) with
          | true =>
            have hstep : executeStreamLoop opts cfgS elapsedAt (fuel + 1) k st history snaps =
                .ok { snaps := snaps ++ [{
                        snap := { iteration := k + 1, state := st
                                  evaluation := some evaluation
                                  actionResult := some actionResult
                                  converged := true
                                  context :=
                                    { iteration := k + 1
                                      maxIterations := cfgS.maxIterations
                                      elapsedTime := elapsedAt k
                                      previousEvaluation :=
                                        (history.getLast?).map (fun h => h.evaluation) } }
                        ranTransition := false }]
                      finalState := st
                      history := history ++ [{
                        iteration := k + 1, actionResult := actionResult
                        evaluation := evaluation, timestamp := elapsedAt k
                        duration := 0 }] } := by
              simp [executeStreamLoop, htime, hact, heval, hconv]
            rw [hstep, Except.ok.injEq] at hout
            subst hout
            refine ⟨_, rfl, ?_⟩
            intro m hm
            have hm0 : m = 0 := by simpa using hm
            subst hm0
            intro _
            exact ⟨by simp, by simp, evaluation, by simp, by simp [hconv]⟩
          | false =>
            cases htrans : opts.transition st actionResult evaluation
                { iteration := k + 1, maxIterations := cfgS.maxIterations
                  elapsedTime := elapsedAt k
                  previousEvaluation := (history.getLast?).map (fun h => h.evaluation) } with
            | error e =>
              have hstep : executeStreamLoop opts cfgS elapsedAt (fuel + 1) k st history
                  snaps = .error e := by
                simp [executeStreamLoop, htime, hact, heval, hconv, htrans]
              rw [hstep] at hout
              simp at hout
            | ok nextState =>
              have hstep : executeStreamLoop opts cfgS elapsedAt (fuel + 1) k st history
                  snaps =
                  executeStreamLoop opts cfgS elapsedAt fuel (k + 1) nextState
                    (history ++ [{
                      iteration := k + 1, actionResult := actionResult
                      evaluation := evaluation, timestamp := elapsedAt k, duration := 0 }])
                    (snaps ++ [{
                      snap := { iteration := k + 1, state := nextState
                                evaluation := some evaluation
                                actionResult := some actionResult
                                converged := false
                                context :=
                                  { iteration := k + 1
                                    maxIterations := cfgS.maxIterations
                                    elapsedTime := elapsedAt k
                                    previousEvaluation :=
                                      (history.getLast?).map (fun h => h.evaluation) } }
                      ranTransition := true }]) := by
                simp [executeStreamLoop, htime, hact, heval, hconv, htrans]
              rw [hstep] at hout
              obtain ⟨suffix, hs, hp⟩ := ih (k + 1) nextState _ _ out hout
              refine ⟨{ snap := { iteration := k + 1, state := nextState
                                  evaluation := some evaluation
                                  actionResult := some actionResult
                                  converged := false
                                  context :=
                                    { iteration := k + 1
                                      maxIterations := cfgS.maxIterations
                                      elapsedTime := elapsedAt k
                                      previousEvaluation :=
                                        (history.getLast?).map (fun h => h.evaluation) } }
                        ranTransition := true } :: suffix, ?_, ?_⟩
              · rw [hs]; simp
              · intro m hm
                cases m with
                | zero =>
                  intro _
                  exact ⟨by simp, by simp, evaluation, by simp, by simp [hconv]⟩
                | succ m =>
                  have hp' := hp m (by simpa using hm)
                  show StreamSnapOk cfgS (k + 1 + (m + 1)) _
                  rw [show k + 1 + (m + 1) = k + 1 + 1 + m by omega]
                  exact hp'

/-- C3: the streaming controller counts iterations 1-based (the snapshot at
position 0 is the pre-loop initial state), an iteration `j` converges
exactly when `(skipMinIterations AND score >= targetScore) OR
(score >= targetScore AND j >= minIterations) OR (NOT shouldContinue AND
j >= minIterations)` — no `earlyStopScore` and no custom-termination rule
enter the decision — and the transition phase ran for a snapshot exactly
when it did not converge (no `alwaysRunTransition`-style exception). -/
theorem c3_streaming_convergence {Input State ActionData Result : Type}
    (opts : IterationOptions Input State ActionData Result)
    (options : IterationConfig) (elapsedAt : Nat → Nat) (input : Input)
    (snaps : List (StreamSnap State ActionData))
    (hok : executeStream opts options elapsedAt input = .ok snaps) :
    (∀ (score : Int) (shouldContinue : Bool) (iteration : Nat),
      streamConverged (resolveStreamCfg options) score shouldContinue iteration = true ↔
        ((options.skipMinIterations.getD false = true ∧ options.targetScore.getD 70 ≤ score) ∨
         (options.targetScore.getD 70 ≤ score ∧ options.minIterations.getD 1 ≤ iteration) ∨
         (shouldContinue = false ∧ options.minIterations.getD 1 ≤ iteration))) ∧
    (∀ s, snaps.get? 0 = some s →
      s.snap.iteration = 0 ∧ s.snap.evaluation = none ∧ s.ranTransition = false) ∧
    (∀ j s, 0 < j → snaps.get? j = some s → s.snap.timedOut = none →
      s.snap.iteration = j ∧
      s.ranTransition = !s.snap.converged ∧
      ∃ ev, s.snap.evaluation = some ev ∧
        s.snap.converged =
          streamConverged (resolveStreamCfg options) ev.score ev.shouldContinue j) := by
  have key : ∃ (initialState : State) (suffix : List (StreamSnap State ActionData)),
      snaps = initialStreamSnaps (resolveStreamCfg options) initialState ++ suffix ∧
      ∀ m (hm : m < suffix.length),
        StreamSnapOk (resolveStreamCfg options) (0 + 1 + m) (suffix.get ⟨m, hm⟩) := by
    unfold executeStream at hok
    cases hinit : opts.initializeFn input with
    | error e =>
      try rw [hinit] at hok
      dsimp only at hok
      simp at hok
    | ok initialState =>
      try rw [hinit] at hok
      dsimp only at hok
      cases hl : executeStreamLoop opts (resolveStreamCfg options) elapsedAt
          (resolveStreamCfg options).maxIterations 0 initialState []
          (initialStreamSnaps (resolveStreamCfg options) initialState) with
      | error e =>
        try rw [hl] at hok
        dsimp only at hok
        simp at hok
      | ok out =>
        try rw [hl] at hok
        dsimp only at hok
        cases hfin : opts.finalize out.finalState out.history with
        | error e =>
          try rw [hfin] at hok
          dsimp only at hok
          simp at hok
        | ok res =>
          try rw [hfin] at hok
          dsimp only at hok
          simp only [Except.ok.injEq] at hok
          subst hok
          obtain ⟨suffix, hs, hp⟩ :=
            executeStreamLoop_suffix opts (resolveStreamCfg options) elapsedAt
              (resolveStreamCfg options).maxIterations 0 initialState []
              (initialStreamSnaps (resolveStreamCfg options) initialState) out hl
          exact ⟨initialState, suffix, hs, hp⟩
  obtain ⟨initialState, suffix, hs, hp⟩ := key
  refine ⟨?_, ?_, ?_⟩
  · intro score shouldContinue iteration
    simp only [streamConverged, resolveStreamCfg, Bool.or_eq_true, Bool.and_eq_true,
      decide_eq_true_iff, Bool.not_eq_true']
    tauto
  · intro s hget
    rw [hs] at hget
    simp only [initialStreamSnaps, List.singleton_append, List.get?_cons_zero,
      Option.some.injEq] at hget
    rw [← hget]
    exact ⟨rfl, rfl, rfl⟩
  · intro j s hj hget htos
    obtain ⟨m, rfl⟩ := Nat.exists_eq_succ_of_ne_zero (Nat.pos_iff_ne_zero.mp hj)
    rw [hs] at hget
    simp only [initialStreamSnaps, List.singleton_append, List.get?_cons_succ] at hget
    obtain ⟨hlt, hEq⟩ := List.get?_eq_some.mp hget
    have hsnap := hp m hlt
    rw [hEq] at hsnap
    have hres := hsnap htos
    rw [show 0 + 1 + m = m + 1 by omega] at hres
    exact hres

/-- The snapshot list produced by a one-iteration demo stream run. -/
def c3snaps : List (StreamSnap Nat Nat) :=
  [{ snap := { iteration := 0, state := 30, evaluation := none, actionResult := none
               converged := false, timedOut := none
               context := { iteration := 0, maxIterations := 1, elapsedTime := 0
                            previousEvaluation := none } }
     ranTransition := false },
   { snap := { iteration := 1, state := 31
               evaluation := some { score := 40, shouldContinue := true }
               actionResult := some { data := 30, metadata := some { cost := some 2 } }
               converged := false, timedOut := none
               context := { iteration := 1, maxIterations := 1, elapsedTime := 0
                            previousEvaluation := none } }
     ranTransition := true }]

/-- C3 witness: the streaming properties on a concrete one-iteration run. -/
theorem c3_witness :
    (∀ (score : Int) (shouldContinue : Bool) (iteration : Nat),
      streamConverged (resolveStreamCfg { maxIterations := some 1 }) score shouldContinue
          iteration = true ↔
        ((({ maxIterations := some 1 } : IterationConfig).skipMinIterations.getD false = true ∧
            ({ maxIterations := some 1 } : IterationConfig).targetScore.getD 70 ≤ score) ∨
         (({ maxIterations := some 1 } : IterationConfig).targetScore.getD 70 ≤ score ∧
            ({ maxIterations := some 1 } : IterationConfig).minIterations.getD 1 ≤ iteration) ∨
         (shouldContinue = false ∧
            ({ maxIterations := some 1 } : IterationConfig).minIterations.getD 1 ≤ iteration))) ∧
    (∀ s, c3snaps.get? 0 = some s →
      s.snap.iteration = 0 ∧ s.snap.evaluation = none ∧ s.ranTransition = false) ∧
    (∀ j s, 0 < j → c3snaps.get? j = some s → s.snap.timedOut = none →
      s.snap.iteration = j ∧
      s.ranTransition = !s.snap.converged ∧
      ∃ ev, s.snap.evaluation = some ev ∧
        s.snap.converged =
          streamConverged (resolveStreamCfg { maxIterations := some 1 })
            ev.score ev.shouldContinue j) :=
  c3_streaming_convergence demoOpts { maxIterations := some 1 } (fun _ => 0) 30 c3snaps rfl
